import Mathlib

/-!
Pagination, search and password flows of the marketplace / users backends.

A shallow embedding of `app.js` (the `GET /marketplace` handler) and of
`src/api/components/users/users-service.js`, followed by the properties
proved about them.

Modelling conventions.

* JavaScript numbers that hold page numbers, page sizes, offsets and counts
  are integers (`Int`, or `Nat` for lengths and counts).  Below `2 ^ 53` the
  double-precision quotient `a / b` of two integers rounds to an integer only
  when the exact quotient is one, so `Math.ceil (a / b)` is the exact ceiling;
  the non-finite results of a division by zero are kept (`JsNum`).
* `await` is sequencing; a rejected promise is an `Except.error`.
* The document store is state that is passed explicitly.
-/

namespace Js

/-- A JavaScript number as produced by `Math.ceil (count / size)` for a
non-negative integer `count` and an integer `size`: an integer, `Infinity`
(`count > 0`, `size = 0`) or `NaN` (`0 / 0`). -/
inductive JsNum where
  | int (n : Int)
  | inf
  | nan
deriving DecidableEq, Repr

/-- The comparison `p < t` for an integer `p` and a JavaScript number `t`
(every comparison with `NaN` is false). -/
def JsNum.gtInt (t : JsNum) (p : Int) : Bool :=
  match t with
  | .int n => decide (p < n)
  | .inf => true
  | .nan => false

/-- The expression `Math.ceil(count / size)`.  For `size ≠ 0` this is the
ceiling of the exact quotient, computed on integers: the division `/` of `Int`
rounds towards minus infinity for a positive divisor, so
`-((-a) / b)` is the ceiling of `a / b` for `b > 0`, and for `b < 0` the
quotient is `-(a / (-b))`, whose ceiling is `-((a) / (-b))`. -/
def mathCeilDiv (count : Nat) (size : Int) : JsNum :=
  if size = 0 then
    (if count = 0 then .nan else .inf)
  else if 0 < size then
    .int (-((-(count : Int)) / size))
  else
    .int (-((count : Int) / (-size)))

/-- The method `Array.prototype.slice(start, end)` on integer arguments:
a negative index counts from the end, both indices are clamped to the
array, and an empty range gives the empty array. -/
def slice {α : Type} (xs : List α) (start stop : Int) : List α :=
  let len : Int := (xs.length : Int)
  let k : Int := if start < 0 then max (len + start) 0 else min start len
  let final : Int := if stop < 0 then max (len + stop) 0 else min stop len
  (xs.drop k.toNat).take (final - k).toNat

/-- A plain object: its own properties in insertion order. -/
abbrev JsObject := List (String × String)

/-- The names of the properties of an object. -/
def JsObject.keys (o : JsObject) : List String := o.map Prod.fst

deriving instance DecidableEq for Except

/-- The values `null`, `true` and `false` returned by the service. -/
inductive JsReply where
  | null
  | bool (b : Bool)
deriving DecidableEq, Repr

end Js

open Js

/-! ## The users repository -/

/-- Modelled from the spec: the User document of the users model (not among
the sources), `id`, `name`, `email` and `password`, the password being the
stored digest. -/
structure User where
  id : String
  name : String
  email : String
  password : String
deriving DecidableEq, Repr

/-- The properties of a stored user document. -/
def User.toObject (u : User) : JsObject :=
  [("id", u.id), ("name", u.name), ("email", u.email), ("password", u.password)]

/-- Modelled from the spec: the state of the Record Store behind
`users-repository` (not among the sources): the stored documents in store
order, the failure (if any) with which the store currently rejects write
operations, and the number of write operations it has applied. -/
structure UsersStore where
  users : List User
  writeFault : Option String
  writes : Nat
deriving DecidableEq, Repr

namespace usersRepository

/-- Modelled from the spec: `usersRepository.getUsers`, every stored user
document, password included, in store order. -/
def getUsers (s : UsersStore) : List User := s.users

/-- Modelled from the spec: `usersRepository.getUser` is `findById`, the
document with that id or nothing. -/
def getUser (s : UsersStore) (id : String) : Option User :=
  s.users.find? (fun u => u.id == id)

/-- Modelled from the spec: `usersRepository.createUser` is `insert`; it is
rejected with the store failure when there is one and appends a document
with a store-assigned id otherwise. -/
def createUser (s : UsersStore) (name email password : String) :
    Except String UsersStore :=
  match s.writeFault with
  | some e => .error e
  | none =>
    .ok { users := s.users ++ [{ id := toString s.writes, name := name,
                                 email := email, password := password }],
          writeFault := none,
          writes := s.writes + 1 }

/-- Modelled from the spec: `usersRepository.updatePassword` is `updateById`
on the password field; it is rejected with the store failure when there is
one and replaces the digest of the document with that id otherwise. -/
def updatePassword (s : UsersStore) (id : String) (password : String) :
    Except String UsersStore :=
  match s.writeFault with
  | some e => .error e
  | none =>
    .ok { users := s.users.map
            (fun u => if u.id == id then { u with password := password } else u),
          writeFault := none,
          writes := s.writes + 1 }

end usersRepository

/-- The Password Hasher: `hashPassword` of `utils/password` (not among the
sources) and `bcrypt.compare`, both taken as parameters. -/
structure Hasher where
  hashPassword : String → String
  compare : String → String → Bool

/-! ## users-service.js -/

namespace usersService

/-- The function `getUsers`: the loop pushes one three-field object for every
document of the repository. -/
def getUsers (s : UsersStore) : List JsObject :=
  (usersRepository.getUsers s).map
    (fun user => [("id", user.id), ("name", user.name), ("email", user.email)])

/-- The function `getUser`: `null` for an absent user, the three-field object
otherwise. -/
def getUser (s : UsersStore) (id : String) : Option JsObject :=
  match usersRepository.getUser s id with
  | none => none
  | some user => some [("id", user.id), ("name", user.name), ("email", user.email)]

/-- The function `createUser`: the digest is computed, the repository call is
wrapped in `try`/`catch`, and the catch clause returns `null`. -/
def createUser (h : Hasher) (s : UsersStore) (name email password : String) :
    Except String (JsReply × UsersStore) :=
  let hashedPassword := h.hashPassword password
  match usersRepository.createUser s name email hashedPassword with
  | .error _ => .ok (.null, s)
  | .ok s1 => .ok (.bool true, s1)

/-- The result object of `getFilteredUsers`. -/
structure FilteredUsers where
  count : Nat
  total_pages : JsNum
  has_previous_page : Bool
  has_next_page : Bool
  users : List User
deriving DecidableEq, Repr

/-- The function `getFilteredUsers(page_number, page_size)`. -/
def getFilteredUsers (s : UsersStore) (page_number page_size : Int) : FilteredUsers :=
  let users := usersRepository.getUsers s
  let count := users.length
  let total_pages := mathCeilDiv count page_size
  let has_previous_page := decide (page_number > 1)
  let has_next_page := total_pages.gtInt page_number
  let start_index := (page_number - 1) * page_size
  let end_index := min (start_index + page_size) (count : Int)
  let users_on_page := Js.slice users start_index end_index
  { count := count,
    total_pages := total_pages,
    has_previous_page := has_previous_page,
    has_next_page := has_next_page,
    users := users_on_page }

/-- The defaults of the parameter list `(page_number = 1, page_size = 10)`:
an omitted argument takes its default. -/
def getFilteredUsersWithDefaults (s : UsersStore) (page_number page_size : Option Int) :
    FilteredUsers :=
  getFilteredUsers s (page_number.getD 1) (page_size.getD 10)

/-- The function `comparePasswords`. -/
def comparePasswords (h : Hasher) (password hashedPassword : String) : Bool :=
  h.compare password hashedPassword

/-- The function `changeUserPassword`: `null` for an absent user, `false`
when the old password does not match, and otherwise the repository update
inside `try`/`catch`, whose catch clause returns `null`. -/
def changeUserPassword (h : Hasher) (s : UsersStore) (id oldPassword newPassword : String) :
    Except String (JsReply × UsersStore) :=
  match usersRepository.getUser s id with
  | none => .ok (.null, s)
  | some user =>
    let isMatch := comparePasswords h oldPassword user.password
    let hashedNewPassword := h.hashPassword newPassword
    if !isMatch then
      .ok (.bool false, s)
    else
      match usersRepository.updatePassword s id hashedNewPassword with
      | .error _ => .ok (.null, s)
      | .ok s1 => .ok (.bool true, s1)

end usersService

/-! ## app.js -/

/-- A document of the `Transaction` model.  The schema declares no field as
required, so every field but the store-assigned `_id` and the defaulted
`transactionDate` may be absent. -/
structure Transaction where
  _id : String
  productName : Option String
  quantity : Option Int
  price : Option Int
  description : Option String
  transactionDate : Nat
deriving DecidableEq, Repr

/-- An element of the `data` array of the response. -/
structure TransactionData where
  id : String
  productName : Option String
  quantity : Option Int
  price : Option Int
  description : Option String
  transactionDate : Nat
deriving DecidableEq, Repr

/-- The store's evaluation of the operator `$regex` with `$options: 'i'`:
a pattern is turned into a test on strings; `none` stands for a pattern for
which no test is available, either because the store rejects it or because
the engine at hand does not cover it. -/
abbrev RegexEngine := String → Option (String → Bool)

namespace Transaction

/-- The filter `{ productName: { $regex: searchProductName, $options: 'i' } }`:
a document without a `productName` string is not matched by `$regex`. -/
def productNameFilter (rx : RegexEngine) (searchProductName : String) :
    Option (Transaction → Bool) :=
  (rx searchProductName).map
    (fun test t => match t.productName with
      | some name => test name
      | none => false)

/-- The call `Transaction.countDocuments(filter)` on the stored documents. -/
def countDocuments (rx : RegexEngine) (docs : List Transaction) (searchProductName : String) :
    Option Nat :=
  (productNameFilter rx searchProductName).map (fun p => (docs.filter p).length)

/-- The query `Transaction.find(filter).skip(n).limit(m)` on the stored
documents in store order, `skip` dropping and `limit` taking a prefix of the
matching documents.  This is the behaviour of the store for `n ≥ 0` and
`m ≥ 1`, which is what page numbers and page sizes of at least one produce;
a negative `n` or `m` is clamped to zero here, which is not what the store
does with it, and nothing is stated about the records of such a query. -/
def find (rx : RegexEngine) (docs : List Transaction) (searchProductName : String)
    (skip limit : Int) : Option (List Transaction) :=
  (productNameFilter rx searchProductName).map
    (fun p => ((docs.filter p).drop skip.toNat).take limit.toNat)

end Transaction

/-- The query string of a request: `page` and `page_size` hold the value of
`parseInt` on the parameter (`none` is `NaN`: the parameter is missing or does
not start with an integer), `search` holds the parameter itself. -/
structure Query where
  page : Option Int
  page_size : Option Int
  search : Option String
deriving DecidableEq, Repr

/-- The expression `parseInt(x) || dflt`: `NaN` and `0` are falsy and give the
default, every other integer is kept. -/
def parseIntOr (parsed : Option Int) (dflt : Int) : Int :=
  match parsed with
  | none => dflt
  | some n => if n = 0 then dflt else n

/-- The body of a successful response of `GET /marketplace`. -/
structure PageResult where
  page_number : Int
  page_size : Int
  count : Nat
  total_pages : JsNum
  has_previous_page : Bool
  has_next_page : Bool
  data : List TransactionData
deriving DecidableEq, Repr

namespace marketplace

/-- The line `const page = parseInt(req.query.page) || 1`. -/
def page (q : Query) : Int := parseIntOr q.page 1

/-- The line `const pageSize = parseInt(req.query.page_size) || 10`. -/
def pageSize (q : Query) : Int := parseIntOr q.page_size 10

/-- The line `const searchProductName = req.query.search || ''`: a missing
parameter and the empty string are falsy. -/
def searchProductName (q : Query) : String :=
  match q.search with
  | none => ""
  | some s => if s = "" then "" else s

/-- The arrow function mapped over the transactions to build `data`. -/
def toData (transaction : Transaction) : TransactionData :=
  { id := transaction._id,
    productName := transaction.productName,
    quantity := transaction.quantity,
    price := transaction.price,
    description := transaction.description,
    transactionDate := transaction.transactionDate }

/-- The handler of `GET /marketplace`: the body of the response of the `try`
block, or `none` when the engine gives no test for the search pattern (a
pattern rejected by the store sends the handler to its `catch` clause; a
pattern outside the fragment of a partial engine is simply not covered). -/
def get (rx : RegexEngine) (docs : List Transaction) (q : Query) : Option PageResult :=
  let page := page q
  let pageSize := pageSize q
  let searchProductName := searchProductName q
  match Transaction.countDocuments rx docs searchProductName with
  | none => none
  | some totalTransactions =>
    let totalPages := mathCeilDiv totalTransactions pageSize
    match Transaction.find rx docs searchProductName ((page - 1) * pageSize) pageSize with
    | none => none
    | some transactions =>
      some { page_number := page,
             page_size := pageSize,
             count := transactions.length,
             total_pages := totalPages,
             has_previous_page := decide (page > 1),
             has_next_page := totalPages.gtInt page,
             data := transactions.map toData }

end marketplace

/-! ## A fragment of the regular expressions of the store -/

namespace Regex

/-- A pattern element of the fragment: an ordinary character, or the dot. -/
inductive Atom where
  | lit (c : Char)
  | dot
deriving DecidableEq, Repr

/-- The characters with a special meaning in a pattern, the dot apart. -/
def metaChars : List Char :=
  ['\\', '^', '$', '*', '+', '?', '(', ')', '[', ']', '{', '}', '|']

/-- The pattern as a sequence of atoms; `none` when it uses a character of
`metaChars`, which is outside the fragment. -/
def compile : List Char → Option (List Atom)
  | [] => some []
  | c :: cs =>
    if c ∈ metaChars then none
    else match compile cs with
      | none => none
      | some atoms => some ((if c = '.' then Atom.dot else Atom.lit c) :: atoms)

/-- One atom against one character under option `i`: a literal matches the
same letter in either case (the letters `a` to `z`), the dot matches every
character but a newline. -/
def Atom.accepts (a : Atom) (d : Char) : Bool :=
  match a with
  | .lit c => c.toLower == d.toLower
  | .dot => d != '\n'

/-- The atoms match a prefix of the subject. -/
def matchHere : List Atom → List Char → Bool
  | [], _ => true
  | _ :: _, [] => false
  | a :: atoms, d :: ds => a.accepts d && matchHere atoms ds

/-- The atoms match somewhere in the subject (an unanchored search). -/
def search (atoms : List Atom) : List Char → Bool
  | [] => matchHere atoms []
  | d :: ds => matchHere atoms (d :: ds) || search atoms ds

/-- The fragment as an engine: patterns made of ordinary characters and dots,
matched without regard to case anywhere in the subject.  A pattern with a
character of `metaChars` gets `none`: it is not covered, whatever the store
does with it. -/
def engine : RegexEngine :=
  fun pattern => (compile pattern.toList).map
    (fun atoms subject => search atoms subject.toList)

/-- The string `needle` occurs in `subject` as a literal substring, letters
compared without regard to case. -/
def containsIgnoreCase (needle subject : String) : Prop :=
  needle.toList.map Char.toLower <:+: subject.toList.map Char.toLower

end Regex

/-! ## Concrete stores, hashers and queries -/

/-- The store of the scenario: `n` users in store order. -/
def storeOfSize (n : Nat) : UsersStore :=
  { users := (List.range n).map
      (fun i => { id := toString i, name := "user", email := "user@example.com",
                  password := "digest" }),
    writeFault := none,
    writes := n }

/-- A store holding one user with a password digest. -/
def oneUserStore : UsersStore :=
  { users := [{ id := "1", name := "Ann", email := "ann@example.com",
                password := "$2b$16$digest" }],
    writeFault := none,
    writes := 1 }

/-- A hasher for concrete evaluation: the digest is the password behind a
marker, and `compare` recomputes it. -/
def markerHasher : Hasher :=
  { hashPassword := fun p => "digest:" ++ p,
    compare := fun p d => d == "digest:" ++ p }

/-- A store holding one user, rejecting every write with `ECONNRESET`. -/
def failingStore : UsersStore :=
  { users := [{ id := "1", name := "Ann", email := "ann@example.com",
                password := "digest:old" }],
    writeFault := some "ECONNRESET",
    writes := 1 }

/-- A transaction for concrete evaluation: only the product name varies. -/
def sampleTransaction (productName : Option String) : Transaction :=
  { _id := "t1", productName := productName, quantity := some 2, price := some 5,
    description := none, transactionDate := 0 }

/-- Three stored transactions, two of them colas. -/
def sampleDocs : List Transaction :=
  [sampleTransaction (some "Tea"), sampleTransaction (some "Coca-Cola"),
   sampleTransaction (some "Cola Zero")]

/-- Three stored transactions that differ in every field. -/
def shelfDocs : List Transaction :=
  [{ _id := "t1", productName := some "Tea", quantity := some 1, price := some 3,
     description := none, transactionDate := 10 },
   { _id := "t2", productName := some "Coca-Cola", quantity := some 2, price := some 5,
     description := some "can", transactionDate := 20 },
   { _id := "t3", productName := some "Cola Zero", quantity := some 4, price := some 6,
     description := some "bottle", transactionDate := 30 }]

/-- The query `?page=1&page_size=1&search=cola`. -/
def colaQuery : Query := { page := some 1, page_size := some 1, search := some "cola" }

/-- The query `?page=2&page_size=1&search=cola`. -/
def colaSecondPage : Query := { page := some 2, page_size := some 1, search := some "cola" }

/-- A store holding one user whose digest is that of `old`. -/
def annStore : UsersStore :=
  { users := [{ id := "1", name := "Ann", email := "ann@example.com",
                password := "digest:old" }],
    writeFault := none,
    writes := 1 }

/-! ## Arithmetic of `Math.ceil` and `slice` -/

/-- For a non-zero size, `mathCeilDiv` is the ceiling of the exact quotient. -/
theorem mathCeilDiv_eq_ceil (count : Nat) (size : Int) (h : size ≠ 0) :
    mathCeilDiv count size = .int ⌈(count : ℚ) / (size : ℚ)⌉ := by
  unfold mathCeilDiv
  rw [if_neg h]
  by_cases hpos : 0 < size
  · rw [if_pos hpos]
    congr 1
    obtain ⟨d, rfl⟩ := Int.eq_ofNat_of_zero_le hpos.le
    have hf := Rat.floor_intCast_div_natCast (-(count : Int)) d
    have hneg : ((count : ℚ) / ((d : ℤ) : ℚ)) = -((((-(count : Int)) : ℤ) : ℚ) / (d : ℚ)) := by
      push_cast
      ring
    rw [hneg, Int.ceil_neg, hf]
  · rw [if_neg hpos]
    congr 1
    have hlt : 0 < -size := by omega
    obtain ⟨d, hd⟩ := Int.eq_ofNat_of_zero_le hlt.le
    have hf := Rat.floor_intCast_div_natCast (count : Int) d
    have hs : size = -(d : Int) := by omega
    have hneg : ((count : ℚ) / (size : ℚ)) = -((((count : Int)) : ℚ) / (d : ℚ)) := by
      rw [hs]
      push_cast
      ring
    rw [hneg, Int.ceil_neg, hf, hd]

/-- The ceiling of `count / size` is at most `p` exactly when `p` pages of
`size` records hold `count` records. -/
theorem ceil_div_le_iff (count : Nat) (size p : Int) (h : 1 ≤ size) :
    ⌈(count : ℚ) / (size : ℚ)⌉ ≤ p ↔ (count : Int) ≤ p * size := by
  have hs : (0 : ℚ) < (size : ℚ) := by exact_mod_cast (by omega : (0 : Int) < size)
  rw [Int.ceil_le, div_le_iff₀ hs]
  constructor
  · intro hq
    exact_mod_cast hq
  · intro hz
    exact_mod_cast hz

/-- The ceiling of `count / size` is zero exactly when `count` is zero. -/
theorem ceil_div_eq_zero_iff (count : Nat) (size : Int) (h : 1 ≤ size) :
    ⌈(count : ℚ) / (size : ℚ)⌉ = 0 ↔ count = 0 := by
  have hnn : (0 : Int) ≤ ⌈(count : ℚ) / (size : ℚ)⌉ := by
    apply Int.ceil_nonneg
    have hs : (0 : ℚ) < (size : ℚ) := by exact_mod_cast (by omega : (0 : Int) < size)
    positivity
  have hle := ceil_div_le_iff count size 0 h
  constructor
  · intro h0
    have : (count : Int) ≤ 0 * size := hle.mp (by omega)
    omega
  · intro hc
    have : ⌈(count : ℚ) / (size : ℚ)⌉ ≤ 0 := hle.mpr (by subst hc; simp)
    omega

/-- With a non-negative start and the end clamped as in `getFilteredUsers`,
`slice` drops `start` elements and takes at most `size`. -/
theorem slice_page {α : Type} (xs : List α) (start size : Nat) :
    Js.slice xs (start : Int) (min ((start : Int) + (size : Int)) (xs.length : Int))
      = (xs.drop start).take size := by
  unfold Js.slice
  have h1 : ¬ ((start : Int) < 0) := by omega
  have h2 : ¬ (min ((start : Int) + (size : Int)) (xs.length : Int) < 0) := by omega
  simp only [if_neg h1, if_neg h2]
  by_cases hle : start ≤ xs.length
  · have hk : (min (start : Int) (xs.length : Int)).toNat = start := by omega
    rw [hk]
    apply List.take_eq_take.mpr
    simp only [List.length_drop]
    omega
  · have hk : (min (start : Int) (xs.length : Int)).toNat = xs.length := by omega
    rw [hk]
    have hd1 : xs.drop xs.length = [] := List.drop_eq_nil_of_le (Nat.le_refl _)
    have hd2 : xs.drop start = [] := List.drop_eq_nil_of_le (by omega)
    rw [hd1, hd2]
    simp

/-- The offset `(p - 1) * s` of page `p` as a natural number. -/
theorem page_offset_cast (p s : Nat) (hp : 1 ≤ p) :
    (((p : Int) - 1) * (s : Int)) = (((p - 1) * s : Nat) : Int) := by
  obtain ⟨k, rfl⟩ : ∃ k, p = k + 1 := ⟨p - 1, by omega⟩
  simp

/-- The page of `getFilteredUsers` as a drop followed by a take. -/
theorem getFilteredUsers_users (st : UsersStore) (p s : Nat) (hp : 1 ≤ p) :
    (usersService.getFilteredUsers st (p : Int) (s : Int)).users
      = (st.users.drop ((p - 1) * s)).take s := by
  simp only [usersService.getFilteredUsers, usersRepository.getUsers]
  rw [page_offset_cast p s hp]
  exact slice_page st.users ((p - 1) * s) s

/-! ## The handler of `GET /marketplace` on an evaluated query -/

/-- When the store evaluates the filter, the handler answers with the page
computed from the matching documents. -/
theorem marketplace_get_of_filter (rx : RegexEngine) (docs : List Transaction) (q : Query)
    (pred : Transaction → Bool)
    (h : Transaction.productNameFilter rx (marketplace.searchProductName q) = some pred) :
    marketplace.get rx docs q = some
      { page_number := marketplace.page q,
        page_size := marketplace.pageSize q,
        count := (((docs.filter pred).drop
                    ((marketplace.page q - 1) * marketplace.pageSize q).toNat).take
                    (marketplace.pageSize q).toNat).length,
        total_pages := mathCeilDiv (docs.filter pred).length (marketplace.pageSize q),
        has_previous_page := decide (marketplace.page q > 1),
        has_next_page :=
          (mathCeilDiv (docs.filter pred).length (marketplace.pageSize q)).gtInt
            (marketplace.page q),
        data := ((((docs.filter pred).drop
                    ((marketplace.page q - 1) * marketplace.pageSize q).toNat).take
                    (marketplace.pageSize q).toNat)).map marketplace.toData } := by
  simp [marketplace.get, Transaction.countDocuments, Transaction.find, h]

/-- A count returned by the store comes from an evaluated filter. -/
theorem countDocuments_some (rx : RegexEngine) (docs : List Transaction) (term : String)
    (total : Nat) (h : Transaction.countDocuments rx docs term = some total) :
    ∃ pred, Transaction.productNameFilter rx term = some pred ∧
      (docs.filter pred).length = total := by
  unfold Transaction.countDocuments at h
  cases hf : Transaction.productNameFilter rx term with
  | none => rw [hf] at h; simp at h
  | some pred =>
    rw [hf] at h
    exact ⟨pred, rfl, by simpa using h⟩

/-! ## Page metadata -/

/-- Claim C1: for a page size of at least one, the `total_pages` of the
`GET /marketplace` response and of `getFilteredUsers` is the ceiling of the
number of matching records divided by the page size, and it is zero exactly
when no record matches. -/
theorem total_pages_is_ceiling (rx : RegexEngine) (docs : List Transaction) (q : Query)
    (totalMatching : Nat) (st : UsersStore) (page_number page_size : Int)
    (hcount : Transaction.countDocuments rx docs (marketplace.searchProductName q)
                = some totalMatching)
    (hq : 1 ≤ marketplace.pageSize q) (hs : 1 ≤ page_size) :
    (∃ body, marketplace.get rx docs q = some body ∧
        body.page_size = marketplace.pageSize q ∧
        body.total_pages = .int ⌈(totalMatching : ℚ) / (marketplace.pageSize q : ℚ)⌉ ∧
        (body.total_pages = .int 0 ↔ totalMatching = 0)) ∧
    ((usersService.getFilteredUsers st page_number page_size).total_pages
        = .int ⌈(st.users.length : ℚ) / (page_size : ℚ)⌉ ∧
      ((usersService.getFilteredUsers st page_number page_size).total_pages = .int 0
        ↔ st.users.length = 0)) := by
  obtain ⟨pred, hpred, hlen⟩ := countDocuments_some rx docs _ totalMatching hcount
  have hq0 : marketplace.pageSize q ≠ 0 := by omega
  have hs0 : page_size ≠ 0 := by omega
  refine ⟨⟨_, marketplace_get_of_filter rx docs q pred hpred, rfl, ?_, ?_⟩, ?_, ?_⟩
  · simp only [hlen]
    exact mathCeilDiv_eq_ceil totalMatching _ hq0
  · simp only [hlen]
    rw [mathCeilDiv_eq_ceil totalMatching _ hq0]
    constructor
    · intro h
      exact (ceil_div_eq_zero_iff totalMatching _ hq).mp (JsNum.int.inj h)
    · intro h
      rw [(ceil_div_eq_zero_iff totalMatching _ hq).mpr h]
  · simp only [usersService.getFilteredUsers, usersRepository.getUsers]
    exact mathCeilDiv_eq_ceil _ _ hs0
  · simp only [usersService.getFilteredUsers, usersRepository.getUsers]
    rw [mathCeilDiv_eq_ceil _ _ hs0]
    constructor
    · intro h
      exact (ceil_div_eq_zero_iff _ _ hs).mp (JsNum.int.inj h)
    · intro h
      rw [(ceil_div_eq_zero_iff _ _ hs).mpr h]

/-- Claim C2: for a page size of at least one, `has_previous_page` is
`page > 1` and `has_next_page` is `page < total_pages`, both in the
`GET /marketplace` response and in the result of `getFilteredUsers`; so
`has_next_page` is false on the last page and on every page beyond it. -/
theorem page_flags (rx : RegexEngine) (docs : List Transaction) (q : Query)
    (totalMatching : Nat) (st : UsersStore) (page_number page_size : Int)
    (hcount : Transaction.countDocuments rx docs (marketplace.searchProductName q)
                = some totalMatching)
    (hq : 1 ≤ marketplace.pageSize q) (hs : 1 ≤ page_size) :
    (∃ body t, marketplace.get rx docs q = some body ∧
        body.page_number = marketplace.page q ∧
        body.total_pages = .int t ∧
        body.has_previous_page = decide (body.page_number > 1) ∧
        body.has_next_page = decide (body.page_number < t) ∧
        (t ≤ body.page_number → body.has_next_page = false)) ∧
    (∃ t, (usersService.getFilteredUsers st page_number page_size).total_pages = .int t ∧
        (usersService.getFilteredUsers st page_number page_size).has_previous_page
          = decide (page_number > 1) ∧
        (usersService.getFilteredUsers st page_number page_size).has_next_page
          = decide (page_number < t) ∧
        (t ≤ page_number →
          (usersService.getFilteredUsers st page_number page_size).has_next_page = false)) := by
  obtain ⟨pred, hpred, hlen⟩ := countDocuments_some rx docs _ totalMatching hcount
  have hq0 : marketplace.pageSize q ≠ 0 := by omega
  have hs0 : page_size ≠ 0 := by omega
  constructor
  · refine ⟨_, ⌈(totalMatching : ℚ) / (marketplace.pageSize q : ℚ)⌉,
      marketplace_get_of_filter rx docs q pred hpred, rfl, ?_, rfl, ?_, ?_⟩
    · simp only [hlen]
      exact mathCeilDiv_eq_ceil totalMatching _ hq0
    · simp only [hlen]
      rw [mathCeilDiv_eq_ceil totalMatching _ hq0]
      rfl
    · intro hle
      have hle2 : ⌈(totalMatching : ℚ) / (marketplace.pageSize q : ℚ)⌉ ≤ marketplace.page q := hle
      simp only [hlen]
      rw [mathCeilDiv_eq_ceil totalMatching _ hq0]
      simp only [JsNum.gtInt, decide_eq_false_iff_not]
      omega
  · refine ⟨⌈(st.users.length : ℚ) / (page_size : ℚ)⌉, ?_, rfl, ?_, ?_⟩
    · simp only [usersService.getFilteredUsers, usersRepository.getUsers]
      exact mathCeilDiv_eq_ceil _ _ hs0
    · simp only [usersService.getFilteredUsers, usersRepository.getUsers]
      rw [mathCeilDiv_eq_ceil _ _ hs0]
      rfl
    · intro hle
      simp only [usersService.getFilteredUsers, usersRepository.getUsers]
      rw [mathCeilDiv_eq_ceil _ _ hs0]
      simp only [JsNum.gtInt, decide_eq_false_iff_not]
      omega

/-! ## The records of a page -/

/-- Claim C3, as stated, fails for `getFilteredUsers`: with three stored users,
page 1 of size 2 returns two users while `count` is 3, which is neither the
number of returned records nor at most the page size. -/
theorem count_is_not_page_length :
    (usersService.getFilteredUsers (storeOfSize 3) 1 2).users.length = 2 ∧
    (usersService.getFilteredUsers (storeOfSize 3) 1 2).count = 3 ∧
    ¬ ((usersService.getFilteredUsers (storeOfSize 3) 1 2).count
          = (usersService.getFilteredUsers (storeOfSize 3) 1 2).users.length ∧
       (usersService.getFilteredUsers (storeOfSize 3) 1 2).count ≤ 2) := by
  decide

/-- Claim C3, amended: in the `GET /marketplace` response `count` is the
length of `data` and at most `page_size`; in the result of `getFilteredUsers`
`count` is the total number of users of the repository, while the returned
`users` slice has at most `page_size` and at most `count` elements. -/
theorem count_of_page (rx : RegexEngine) (docs : List Transaction) (q : Query)
    (totalMatching : Nat) (st : UsersStore) (p s : Nat)
    (hcount : Transaction.countDocuments rx docs (marketplace.searchProductName q)
                = some totalMatching)
    (hq : 1 ≤ marketplace.pageSize q) (hp : 1 ≤ p) :
    (∃ body, marketplace.get rx docs q = some body ∧
        body.count = body.data.length ∧
        (body.count : Int) ≤ body.page_size) ∧
    ((usersService.getFilteredUsers st (p : Int) (s : Int)).count = st.users.length ∧
      (usersService.getFilteredUsers st (p : Int) (s : Int)).users.length ≤ s ∧
      (usersService.getFilteredUsers st (p : Int) (s : Int)).users.length
        ≤ (usersService.getFilteredUsers st (p : Int) (s : Int)).count) := by
  obtain ⟨pred, hpred, -⟩ := countDocuments_some rx docs _ totalMatching hcount
  refine ⟨⟨_, marketplace_get_of_filter rx docs q pred hpred, ?_, ?_⟩, rfl, ?_, ?_⟩
  · simp
  · simp only [List.length_take, List.length_drop]
    omega
  · rw [getFilteredUsers_users st p s hp]
    simp only [List.length_take, List.length_drop]
    omega
  · rw [getFilteredUsers_users st p s hp]
    simp only [usersService.getFilteredUsers, usersRepository.getUsers,
      List.length_take, List.length_drop]
    omega

/-- Claim C4: for a page number `p` and a page size `s`, both at least one,
the page returned by `getFilteredUsers` and the `data` of `GET /marketplace`
hold the records at offsets `(p - 1) * s` to `(p - 1) * s + s - 1` of the
matching records, in order: `min s (total - (p - 1) * s)` of them (the
subtraction stopping at zero), and none when `p` is beyond `total_pages`.
The users are returned as stored; every element of `data` carries the
`_id` (as `id`), `productName`, `quantity`, `price`, `description` and
`transactionDate` of the transaction at its offset. -/
theorem page_records (rx : RegexEngine) (docs : List Transaction) (q : Query)
    (pred : Transaction → Bool) (st : UsersStore) (p s : Nat)
    (hpred : Transaction.productNameFilter rx (marketplace.searchProductName q) = some pred)
    (hpage : marketplace.page q = (p : Int)) (hsize : marketplace.pageSize q = (s : Int))
    (hp : 1 ≤ p) (hs : 1 ≤ s) :
    (∃ t : Int,
        (usersService.getFilteredUsers st (p : Int) (s : Int)).total_pages = .int t ∧
        (usersService.getFilteredUsers st (p : Int) (s : Int)).users
          = (st.users.drop ((p - 1) * s)).take s ∧
        (usersService.getFilteredUsers st (p : Int) (s : Int)).users.length
          = min s (st.users.length - (p - 1) * s) ∧
        (∀ i, i < s →
          (usersService.getFilteredUsers st (p : Int) (s : Int)).users[i]?
            = st.users[(p - 1) * s + i]?) ∧
        (t < (p : Int) → (usersService.getFilteredUsers st (p : Int) (s : Int)).users = [])) ∧
    (∃ body, ∃ t : Int, marketplace.get rx docs q = some body ∧
        body.total_pages = .int t ∧
        body.data = (((docs.filter pred).drop ((p - 1) * s)).take s).map
          (fun r => { id := r._id, productName := r.productName, quantity := r.quantity,
                      price := r.price, description := r.description,
                      transactionDate := r.transactionDate }) ∧
        body.count = min s ((docs.filter pred).length - (p - 1) * s) ∧
        body.data.length = min s ((docs.filter pred).length - (p - 1) * s) ∧
        (∀ i, i < s →
          body.data[i]? = ((docs.filter pred)[(p - 1) * s + i]?).map
            (fun r => { id := r._id, productName := r.productName, quantity := r.quantity,
                        price := r.price, description := r.description,
                        transactionDate := r.transactionDate })) ∧
        (t < (p : Int) → body.data = [] ∧ body.count = 0)) := by
  have hdata : marketplace.toData
      = (fun r => ({ id := r._id, productName := r.productName, quantity := r.quantity,
                     price := r.price, description := r.description,
                     transactionDate := r.transactionDate } : TransactionData)) := rfl
  have hs0 : ((s : Nat) : Int) ≠ 0 := by omega
  have hs1 : (1 : Int) ≤ (s : Int) := by omega
  have hget : ∀ {α : Type} (xs : List α) (i : Nat), i < s →
      ((xs.drop ((p - 1) * s)).take s)[i]? = xs[(p - 1) * s + i]? := by
    intro α xs i hi
    rw [List.getElem?_take_of_lt hi, List.getElem?_drop]
  have hnil : ∀ {α : Type} (xs : List α),
      ⌈(xs.length : ℚ) / ((s : Int) : ℚ)⌉ < (p : Int) → (xs.drop ((p - 1) * s)).take s = [] := by
    intro α xs hlt
    have hle : ⌈(xs.length : ℚ) / ((s : Int) : ℚ)⌉ ≤ ((p - 1 : Nat) : Int) := by omega
    have hc := (ceil_div_le_iff xs.length (s : Int) ((p - 1 : Nat) : Int) hs1).mp hle
    have hc2 : xs.length ≤ (p - 1) * s := by exact_mod_cast hc
    rw [List.drop_eq_nil_of_le hc2]
    simp
  constructor
  · refine ⟨⌈(st.users.length : ℚ) / ((s : Int) : ℚ)⌉, ?_, getFilteredUsers_users st p s hp,
      ?_, ?_, ?_⟩
    · simp only [usersService.getFilteredUsers, usersRepository.getUsers]
      exact mathCeilDiv_eq_ceil _ _ hs0
    · rw [getFilteredUsers_users st p s hp]
      simp [List.length_take, List.length_drop]
    · intro i hi
      rw [getFilteredUsers_users st p s hp]
      exact hget st.users i hi
    · intro hlt
      rw [getFilteredUsers_users st p s hp]
      exact hnil st.users hlt
  · have hoff : ((marketplace.page q - 1) * marketplace.pageSize q).toNat = (p - 1) * s := by
      rw [hpage, hsize, page_offset_cast p s hp]
      exact Int.toNat_ofNat _
    have hlim : (marketplace.pageSize q).toNat = s := by
      rw [hsize]
      simp
    refine ⟨_, ⌈((docs.filter pred).length : ℚ) / ((s : Int) : ℚ)⌉,
      marketplace_get_of_filter rx docs q pred hpred, ?_, ?_, ?_, ?_, ?_, ?_⟩
    · simp only [hsize]
      exact mathCeilDiv_eq_ceil _ _ hs0
    · simp only [hoff, hlim, hdata]
    · simp only [hoff, hlim]
      simp [List.length_take, List.length_drop]
    · simp only [hoff, hlim]
      simp [List.length_take, List.length_drop]
    · intro i hi
      simp only [hoff, hlim, hdata]
      rw [List.getElem?_map, hget (docs.filter pred) i hi]
    · intro hlt
      simp only [hoff, hlim]
      rw [hnil (docs.filter pred) hlt]
      simp

/-- Claim C10: for a page size `s` of at least one, the `users` slices that
`getFilteredUsers` returns for the pages 1 to `total_pages`, concatenated in
that order, are the list of the repository, and every page before the last
one holds exactly `s` users. -/
theorem pages_partition_users (st : UsersStore) (s : Nat) (hs : 1 ≤ s) :
    ∃ t : Nat,
      (usersService.getFilteredUsers st 1 (s : Int)).total_pages = .int (t : Int) ∧
      ((List.range t).map
          (fun i => (usersService.getFilteredUsers st ((i + 1 : Nat) : Int) (s : Int)).users)).flatten
        = usersRepository.getUsers st ∧
      (∀ i, i + 1 < t →
        (usersService.getFilteredUsers st ((i + 1 : Nat) : Int) (s : Int)).users.length = s) := by
  have hs0 : ((s : Nat) : Int) ≠ 0 := by omega
  have hs1 : (1 : Int) ≤ (s : Int) := by omega
  have hnn : (0 : Int) ≤ ⌈(st.users.length : ℚ) / ((s : Int) : ℚ)⌉ := by
    apply Int.ceil_nonneg
    have : (0 : ℚ) < ((s : Int) : ℚ) := by exact_mod_cast (by omega : (0 : Int) < (s : Int))
    positivity
  obtain ⟨t, ht⟩ := Int.eq_ofNat_of_zero_le hnn
  have hchar : ∀ k : Nat, t ≤ k ↔ st.users.length ≤ k * s := by
    intro k
    have h := ceil_div_le_iff st.users.length (s : Int) (k : Int) hs1
    rw [ht] at h
    constructor
    · intro hk
      have := h.mp (by exact_mod_cast hk)
      exact_mod_cast this
    · intro hk
      have := h.mpr (by exact_mod_cast hk)
      exact_mod_cast this
  have hjoin : ∀ k : Nat,
      ((List.range k).map
          (fun i => (usersService.getFilteredUsers st ((i + 1 : Nat) : Int) (s : Int)).users)).flatten
        = st.users.take (k * s) := by
    intro k
    induction k with
    | zero => simp
    | succ k ih =>
      rw [List.range_succ, List.map_append, List.flatten_append, ih]
      simp only [List.map_cons, List.map_nil, List.flatten_cons, List.flatten_nil,
        List.append_nil]
      rw [getFilteredUsers_users st (k + 1) s (by omega)]
      have : (k + 1) * s = k * s + s := by ring
      rw [this, List.take_add]
      simp
  refine ⟨t, ?_, ?_, ?_⟩
  · simp only [usersService.getFilteredUsers, usersRepository.getUsers]
    rw [mathCeilDiv_eq_ceil _ _ hs0, ht]
  · rw [hjoin t]
    exact List.take_of_length_le ((hchar t).mp (Nat.le_refl t))
  · intro i hi
    rw [getFilteredUsers_users st (i + 1) s (by omega)]
    have hnot : ¬ st.users.length ≤ (i + 1) * s := fun h => by
      have := (hchar (i + 1)).mpr h
      omega
    simp only [List.length_take, List.length_drop, Nat.add_sub_cancel]
    have : (i + 1) * s = i * s + s := by ring
    omega

/-! ## The public projection of a user -/

/-- The records of `getUsers` and of `getUser` have exactly the properties
`id`, `name` and `email`. -/
theorem getUsers_getUser_allow_list (st : UsersStore) (id : String) :
    (∀ o ∈ usersService.getUsers st, o.keys = ["id", "name", "email"]) ∧
    (∀ o, usersService.getUser st id = some o → o.keys = ["id", "name", "email"]) := by
  constructor
  · intro o ho
    simp only [usersService.getUsers, List.mem_map] at ho
    obtain ⟨u, -, rfl⟩ := ho
    rfl
  · intro o ho
    unfold usersService.getUser at ho
    cases hu : usersRepository.getUser st id with
    | none => rw [hu] at ho; simp at ho
    | some u =>
      rw [hu] at ho
      simp only [Option.some.injEq] at ho
      subst ho
      rfl

/-- Claim C5 at the store `oneUserStore`: `getUsers` and `getUser` return the
three allow-listed properties, while the page returned by
`getFilteredUsers(1, 10)` is the stored document itself, with its `password`
property. -/
theorem getFilteredUsers_returns_password :
    (usersService.getUsers oneUserStore).map JsObject.keys = [["id", "name", "email"]] ∧
    (usersService.getUser oneUserStore "1").map JsObject.keys = some ["id", "name", "email"] ∧
    (usersService.getFilteredUsers oneUserStore 1 10).users.map User.toObject
      = [[("id", "1"), ("name", "Ann"), ("email", "ann@example.com"),
          ("password", "$2b$16$digest")]] ∧
    (∃ o ∈ (usersService.getFilteredUsers oneUserStore 1 10).users.map User.toObject,
        "password" ∈ o.keys) := by
  decide

/-! ## Changing a password -/

/-- Replacing the digest of the documents with a given id does not change
which document is found under an id. -/
theorem getUser_after_update (users : List User) (id password : String) :
    (users.map (fun u => if u.id == id then { u with password := password } else u)).find?
        (fun u => u.id == id)
      = (users.find? (fun u => u.id == id)).map (fun u => { u with password := password }) := by
  induction users with
  | nil => rfl
  | cons u rest ih =>
    by_cases hu : (u.id == id) = true
    · simp [List.find?, hu]
    · simp only [Bool.not_eq_true] at hu
      simp only [List.map_cons, List.find?, hu, ih]
      simp [hu]

/-- Claim C6: with a hasher whose `compare` accepts the digest of a password,
and a store that accepts writes, `changeUserPassword` writes to the store
exactly when the user exists and the old password matches the stored digest;
it then returns `true` and the stored digest matches the new password.  When
the user exists and the old password does not match it returns `false` and
leaves the store as it was; for an absent user it returns `null`. -/
theorem change_password_contract (h : Hasher) (st : UsersStore)
    (id oldPassword newPassword : String)
    (hverify : ∀ p, h.compare p (h.hashPassword p) = true)
    (hstore : st.writeFault = none) :
    ∃ reply st1,
      usersService.changeUserPassword h st id oldPassword newPassword = .ok (reply, st1) ∧
      (st1.writes ≠ st.writes ↔
        ∃ u, usersRepository.getUser st id = some u ∧
          h.compare oldPassword u.password = true) ∧
      (∀ u, usersRepository.getUser st id = some u →
        h.compare oldPassword u.password = true →
          reply = .bool true ∧
          ∃ u1, usersRepository.getUser st1 id = some u1 ∧
            h.compare newPassword u1.password = true) ∧
      (∀ u, usersRepository.getUser st id = some u →
        h.compare oldPassword u.password = false →
          reply = .bool false ∧ reply ≠ .null ∧ st1 = st) ∧
      (usersRepository.getUser st id = none → reply = .null ∧ st1 = st) := by
  cases hu : usersRepository.getUser st id with
  | none =>
    refine ⟨.null, st, ?_, ?_, ?_, ?_, ?_⟩
    · simp [usersService.changeUserPassword, hu]
    · simp
    · intro u hcontra
      simp at hcontra
    · intro u hcontra
      simp at hcontra
    · intro _
      exact ⟨rfl, rfl⟩
  | some user =>
    cases hm : h.compare oldPassword user.password with
    | false =>
      refine ⟨.bool false, st, ?_, ?_, ?_, ?_, ?_⟩
      · simp [usersService.changeUserPassword, usersService.comparePasswords, hu, hm]
      · simp [hm]
      · intro u hsome hcmp
        simp only [Option.some.injEq] at hsome
        subst hsome
        rw [hm] at hcmp
        simp at hcmp
      · intro u _ _
        exact ⟨rfl, by simp, rfl⟩
      · intro hcontra
        simp at hcontra
    | true =>
      refine ⟨.bool true,
        { users := st.users.map
            (fun u => if u.id == id then { u with password := h.hashPassword newPassword }
              else u),
          writeFault := none,
          writes := st.writes + 1 }, ?_, ?_, ?_, ?_, ?_⟩
      · simp [usersService.changeUserPassword, usersService.comparePasswords, hu, hm,
          usersRepository.updatePassword, hstore]
      · simp [hm]
      · intro u _ _
        refine ⟨rfl, { user with password := h.hashPassword newPassword }, ?_, hverify _⟩
        have hfind : st.users.find? (fun u => u.id == id) = some user := hu
        simp only [usersRepository.getUser]
        rw [getUser_after_update, hfind]
        rfl
      · intro u hsome hcmp
        simp only [Option.some.injEq] at hsome
        subst hsome
        rw [hm] at hcmp
        simp at hcmp
      · intro hcontra
        simp at hcontra

/-! ## Failures of the store -/

/-- Claim C8, as stated, fails: on a store that rejects writes with
`ECONNRESET`, `createUser` and `changeUserPassword` do not fail with that
error but return `null`, the value `changeUserPassword` also returns for an
absent user. -/
theorem store_failure_not_surfaced :
    usersService.createUser markerHasher failingStore "Bob" "bob@example.com" "pw"
      ≠ .error "ECONNRESET" ∧
    (usersService.createUser markerHasher failingStore "Bob" "bob@example.com" "pw").map
      Prod.fst = .ok .null ∧
    usersService.changeUserPassword markerHasher failingStore "1" "old" "new"
      ≠ .error "ECONNRESET" ∧
    (usersService.changeUserPassword markerHasher failingStore "1" "old" "new").map
      Prod.fst = .ok .null ∧
    (usersService.changeUserPassword markerHasher failingStore "absent" "old" "new").map
      Prod.fst = .ok .null := by
  decide

/-- Claim C8, amended: when the store rejects the write, the service does not
surface the failure.  `createUser` returns `null` as a normal value, for every
input; `changeUserPassword`, which reaches the write exactly for an existing
user whose digest matches the old password, returns `null` as a normal value
too, and `null` is also what it returns for an absent user. -/
theorem store_failure_returns_null (h : Hasher) (st : UsersStore) (e : String)
    (name email password id oldPassword newPassword absentId : String)
    (hfault : st.writeFault = some e) :
    (usersRepository.createUser st name email (h.hashPassword password) = .error e ∧
      (usersService.createUser h st name email password).map Prod.fst = .ok .null) ∧
    (∀ u, usersRepository.getUser st id = some u →
      h.compare oldPassword u.password = true →
        usersRepository.updatePassword st id (h.hashPassword newPassword) = .error e ∧
        (usersService.changeUserPassword h st id oldPassword newPassword).map Prod.fst
          = .ok .null) ∧
    (usersRepository.getUser st absentId = none →
      (usersService.changeUserPassword h st absentId oldPassword newPassword).map Prod.fst
        = .ok .null) := by
  refine ⟨⟨?_, ?_⟩, ?_, ?_⟩
  · simp [usersRepository.createUser, hfault]
  · simp [usersService.createUser, usersRepository.createUser, hfault, Except.map]
  · intro u huser hmatch
    constructor
    · simp [usersRepository.updatePassword, hfault]
    · simp [usersService.changeUserPassword, usersService.comparePasswords, huser, hmatch,
        usersRepository.updatePassword, hfault, Except.map]
  · intro habsent
    simp [usersService.changeUserPassword, habsent, Except.map]

/-! ## The page parameters of `GET /marketplace` -/

/-- Claim C9, as stated, fails: negative values of `page` and `page_size` are
not replaced by the defaults but used as given. -/
theorem negative_page_parameters_kept :
    marketplace.page { page := some (-3), page_size := some (-5), search := none } = -3 ∧
    marketplace.pageSize { page := some (-3), page_size := some (-5), search := none } = -5 ∧
    ¬ (1 ≤ marketplace.page { page := some (-3), page_size := some (-5), search := none } ∧
       1 ≤ marketplace.pageSize { page := some (-3), page_size := some (-5), search := none }) := by
  decide

/-- Claim C9, amended: a missing, non-numeric or zero `page` / `page_size` is
replaced by the default 1 / 10, and every other integer, positive or negative,
is used as given; so the values used are never zero, and they are at least
one exactly when the parsed value is not negative. -/
theorem page_parameters_defaulting (q : Query) :
    ((q.page = none ∨ q.page = some 0) → marketplace.page q = 1) ∧
    (∀ n : Int, n ≠ 0 → q.page = some n → marketplace.page q = n) ∧
    ((q.page_size = none ∨ q.page_size = some 0) → marketplace.pageSize q = 10) ∧
    (∀ n : Int, n ≠ 0 → q.page_size = some n → marketplace.pageSize q = n) ∧
    marketplace.page q ≠ 0 ∧ marketplace.pageSize q ≠ 0 ∧
    (1 ≤ marketplace.page q ↔ ∀ n : Int, q.page = some n → 0 ≤ n) ∧
    (1 ≤ marketplace.pageSize q ↔ ∀ n : Int, q.page_size = some n → 0 ≤ n) := by
  unfold marketplace.page marketplace.pageSize parseIntOr
  refine ⟨?_, ?_, ?_, ?_, ?_, ?_, ?_, ?_⟩
  · rintro (h | h) <;> simp [h]
  · intro n hn h
    simp [h, hn]
  · rintro (h | h) <;> simp [h]
  · intro n hn h
    simp [h, hn]
  · cases hq : q.page with
    | none => simp
    | some n => by_cases hn : n = 0 <;> simp [hn]
  · cases hq : q.page_size with
    | none => simp
    | some n => by_cases hn : n = 0 <;> simp [hn]
  · cases hq : q.page with
    | none => simp
    | some n =>
      by_cases hn : n = 0
      · simp [hn]
      · simp only [hn, if_false, Option.some.injEq, forall_eq']
        omega
  · cases hq : q.page_size with
    | none => simp
    | some n =>
      by_cases hn : n = 0
      · simp [hn]
      · simp only [hn, if_false, Option.some.injEq, forall_eq']
        omega

/-! ## The search filter -/

/-- A pattern without special characters compiles to its literals. -/
theorem compile_literal (cs : List Char)
    (h : ∀ c ∈ cs, c ∉ Regex.metaChars ∧ c ≠ '.') :
    Regex.compile cs = some (cs.map Regex.Atom.lit) := by
  induction cs with
  | nil => rfl
  | cons c cs ih =>
    have hc := h c (List.mem_cons_self c cs)
    have hrest := ih (fun d hd => h d (List.mem_cons_of_mem c hd))
    simp [Regex.compile, hc.1, hc.2, hrest]

/-- Literals match at the start of the subject exactly when the lower-cased
pattern is a prefix of the lower-cased subject. -/
theorem matchHere_literal (cs ds : List Char) :
    Regex.matchHere (cs.map Regex.Atom.lit) ds = true
      ↔ cs.map Char.toLower <+: ds.map Char.toLower := by
  induction cs generalizing ds with
  | nil => simp [Regex.matchHere]
  | cons c cs ih =>
    cases ds with
    | nil => simp [Regex.matchHere]
    | cons d ds =>
      simp only [List.map_cons, Regex.matchHere, Regex.Atom.accepts, Bool.and_eq_true,
        beq_iff_eq, List.cons_prefix_cons, ih ds]

/-- Literals match somewhere in the subject exactly when the lower-cased
pattern occurs in the lower-cased subject. -/
theorem search_literal (cs ds : List Char) :
    Regex.search (cs.map Regex.Atom.lit) ds = true
      ↔ cs.map Char.toLower <:+: ds.map Char.toLower := by
  induction ds with
  | nil =>
    simp only [Regex.search, matchHere_literal, List.map_nil, List.prefix_nil, List.infix_nil]
  | cons d ds ih =>
    simp only [Regex.search, Bool.or_eq_true, matchHere_literal, ih, List.map_cons,
      List.infix_cons_iff]

/-- Claim C7, as stated, fails: the search term is a pattern, so `.` matches
the product name `Tea`, which does not contain a dot; and the empty search
term does not match a record that has no product name. -/
theorem search_term_is_a_pattern :
    ((Transaction.productNameFilter Regex.engine
        (marketplace.searchProductName { page := none, page_size := none, search := some "." })).map
        (fun pred => pred (sampleTransaction (some "Tea")))) = some true ∧
    ¬ Regex.containsIgnoreCase "." "Tea" ∧
    ((Transaction.productNameFilter Regex.engine
        (marketplace.searchProductName { page := none, page_size := none, search := none })).map
        (fun pred => pred (sampleTransaction none))) = some false := by
  unfold Regex.containsIgnoreCase
  decide

/-- Claim C7, amended: for a search term without regular-expression special
characters and a record that has a product name, the filter built by
`GET /marketplace` matches the record exactly when the product name contains
the term as a literal substring, letters compared without regard to case; the
empty or missing term matches every such record. -/
theorem search_filter_literal (q : Query) (t : Transaction) (name : String)
    (hlit : ∀ c ∈ (marketplace.searchProductName q).toList,
              c ∉ Regex.metaChars ∧ c ≠ '.')
    (hname : t.productName = some name) :
    ∃ pred, Transaction.productNameFilter Regex.engine (marketplace.searchProductName q)
              = some pred ∧
      (pred t = true ↔ Regex.containsIgnoreCase (marketplace.searchProductName q) name) ∧
      ((q.search = none ∨ q.search = some "") → pred t = true) := by
  have hcomp := compile_literal _ hlit
  refine ⟨fun r => match r.productName with
      | some n => Regex.search ((marketplace.searchProductName q).toList.map Regex.Atom.lit)
                    n.toList
      | none => false, ?_, ?_, ?_⟩
  · simp only [Transaction.productNameFilter, Regex.engine, hcomp, Option.map_some']
  · simp only [hname, Regex.containsIgnoreCase]
    exact search_literal _ _
  · intro hq
    have hempty : marketplace.searchProductName q = "" := by
      rcases hq with hq | hq <;> simp [marketplace.searchProductName, hq]
    simp only [hname]
    rw [search_literal, hempty]
    simp

/-! ## Concrete instances -/

/-- The scenario of 25 records in pages of 10: three pages; page 1 has ten
users, no previous and a next page; page 3 has five users and no next page;
page 4 is empty and has no next page. -/
theorem scenario_25_by_10 :
    (usersService.getFilteredUsers (storeOfSize 25) 1 10).total_pages = .int 3 ∧
    (usersService.getFilteredUsers (storeOfSize 25) 1 10).has_previous_page = false ∧
    (usersService.getFilteredUsers (storeOfSize 25) 1 10).has_next_page = true ∧
    (usersService.getFilteredUsers (storeOfSize 25) 1 10).users.length = 10 ∧
    (usersService.getFilteredUsers (storeOfSize 25) 3 10).users.length = 5 ∧
    (usersService.getFilteredUsers (storeOfSize 25) 3 10).has_next_page = false ∧
    (usersService.getFilteredUsers (storeOfSize 25) 4 10).users.length = 0 ∧
    (usersService.getFilteredUsers (storeOfSize 25) 4 10).has_next_page = false := by
  decide

/-- The page count at the cola query (two matching records in pages of 1)
and at 25 users in pages of 10. -/
theorem total_pages_is_ceiling_witness :
    (∃ body, marketplace.get Regex.engine sampleDocs colaQuery = some body ∧
        body.page_size = marketplace.pageSize colaQuery ∧
        body.total_pages = .int ⌈((2 : Nat) : ℚ) / (marketplace.pageSize colaQuery : ℚ)⌉ ∧
        (body.total_pages = .int 0 ↔ 2 = 0)) ∧
    ((usersService.getFilteredUsers (storeOfSize 25) 1 10).total_pages
        = .int ⌈((storeOfSize 25).users.length : ℚ) / ((10 : Int) : ℚ)⌉ ∧
      ((usersService.getFilteredUsers (storeOfSize 25) 1 10).total_pages = .int 0
        ↔ (storeOfSize 25).users.length = 0)) :=
  total_pages_is_ceiling Regex.engine sampleDocs colaQuery 2 (storeOfSize 25) 1 10
    (by decide) (by decide) (by decide)

/-- The previous and next flags at the cola query and at page 3 of 25 users
in pages of 10. -/
theorem page_flags_witness :
    (∃ body t, marketplace.get Regex.engine sampleDocs colaQuery = some body ∧
        body.page_number = marketplace.page colaQuery ∧
        body.total_pages = .int t ∧
        body.has_previous_page = decide (body.page_number > 1) ∧
        body.has_next_page = decide (body.page_number < t) ∧
        (t ≤ body.page_number → body.has_next_page = false)) ∧
    (∃ t, (usersService.getFilteredUsers (storeOfSize 25) 3 10).total_pages = .int t ∧
        (usersService.getFilteredUsers (storeOfSize 25) 3 10).has_previous_page
          = decide ((3 : Int) > 1) ∧
        (usersService.getFilteredUsers (storeOfSize 25) 3 10).has_next_page
          = decide ((3 : Int) < t) ∧
        (t ≤ 3 →
          (usersService.getFilteredUsers (storeOfSize 25) 3 10).has_next_page = false)) :=
  page_flags Regex.engine sampleDocs colaQuery 2 (storeOfSize 25) 3 10
    (by decide) (by decide) (by decide)

/-- The `count` field at the cola query and at page 3 of 25 users in pages
of 10. -/
theorem count_of_page_witness :
    (∃ body, marketplace.get Regex.engine sampleDocs colaQuery = some body ∧
        body.count = body.data.length ∧
        (body.count : Int) ≤ body.page_size) ∧
    ((usersService.getFilteredUsers (storeOfSize 25) ((3 : Nat) : Int) ((10 : Nat) : Int)).count
        = (storeOfSize 25).users.length ∧
      (usersService.getFilteredUsers (storeOfSize 25) ((3 : Nat) : Int)
          ((10 : Nat) : Int)).users.length ≤ 10 ∧
      (usersService.getFilteredUsers (storeOfSize 25) ((3 : Nat) : Int)
          ((10 : Nat) : Int)).users.length
        ≤ (usersService.getFilteredUsers (storeOfSize 25) ((3 : Nat) : Int)
            ((10 : Nat) : Int)).count) :=
  count_of_page Regex.engine sampleDocs colaQuery 2 (storeOfSize 25) 3 10
    (by decide) (by decide) (by decide)

/-- Page 2 in pages of 1: of three users it is the second one, and of the two
colas on the shelf it is the second one, with its own id and fields. -/
theorem page_records_witness :
    (usersService.getFilteredUsers (storeOfSize 3) ((2 : Nat) : Int) ((1 : Nat) : Int)).users
      = [{ id := "1", name := "user", email := "user@example.com", password := "digest" }] ∧
    (∃ body, marketplace.get Regex.engine shelfDocs colaSecondPage = some body ∧
      body.data = [{ id := "t3", productName := some "Cola Zero", quantity := some 4,
                     price := some 6, description := some "bottle",
                     transactionDate := 30 }]) := by
  have h := page_records Regex.engine shelfDocs colaSecondPage
    (fun t => match t.productName with
      | some n => Regex.search [.lit 'c', .lit 'o', .lit 'l', .lit 'a'] n.toList
      | none => false)
    (storeOfSize 3) 2 1 (by rfl) (by decide) (by decide) (by decide) (by decide)
  obtain ⟨⟨_, _, husers, _⟩, body, _, hbody, _, hdata, _⟩ := h
  refine ⟨?_, body, hbody, ?_⟩
  · rw [husers]
    decide
  · rw [hdata]
    decide

/-- The pages of 25 users in pages of 10 add up to the stored list. -/
theorem pages_partition_users_witness :
    ∃ t : Nat,
      (usersService.getFilteredUsers (storeOfSize 25) 1 ((10 : Nat) : Int)).total_pages
        = .int (t : Int) ∧
      ((List.range t).map
          (fun i => (usersService.getFilteredUsers (storeOfSize 25) ((i + 1 : Nat) : Int)
            ((10 : Nat) : Int)).users)).flatten
        = usersRepository.getUsers (storeOfSize 25) ∧
      (∀ i, i + 1 < t →
        (usersService.getFilteredUsers (storeOfSize 25) ((i + 1 : Nat) : Int)
          ((10 : Nat) : Int)).users.length = 10) :=
  pages_partition_users (storeOfSize 25) 10 (by decide)

/-- At `annStore` the matching old password is accepted: the call returns
`true` and the stored digest then matches the new password. -/
theorem change_password_contract_witness :
    ∃ st1, usersService.changeUserPassword markerHasher annStore "1" "old" "new"
        = .ok (.bool true, st1) ∧
      ∃ u1, usersRepository.getUser st1 "1" = some u1 ∧
        markerHasher.compare "new" u1.password = true := by
  obtain ⟨reply, st1, hcall, _, hgood, _, _⟩ :=
    change_password_contract markerHasher annStore "1" "old" "new"
      (by intro p; simp [markerHasher]) (by rfl)
  obtain ⟨hreply, hdigest⟩ := hgood
    { id := "1", name := "Ann", email := "ann@example.com", password := "digest:old" }
    (by decide) (by decide)
  subst hreply
  exact ⟨st1, hcall, hdigest⟩

/-- On a store without any user that rejects writes, `createUser` returns
`null`; at `failingStore`, `changeUserPassword` returns `null` for the user
with the matching old password and for an absent user alike. -/
theorem store_failure_returns_null_witness :
    (usersService.createUser markerHasher
        { users := [], writeFault := some "ETIMEDOUT", writes := 0 }
        "Bob" "bob@example.com" "pw").map Prod.fst = .ok .null ∧
    (usersService.changeUserPassword markerHasher failingStore "1" "old" "new").map Prod.fst
      = .ok .null ∧
    (usersService.changeUserPassword markerHasher failingStore "absent" "old" "new").map
      Prod.fst = .ok .null :=
  ⟨(store_failure_returns_null markerHasher
      { users := [], writeFault := some "ETIMEDOUT", writes := 0 } "ETIMEDOUT"
      "Bob" "bob@example.com" "pw" "1" "old" "new" "absent" (by rfl)).1.2,
   ((store_failure_returns_null markerHasher failingStore "ECONNRESET"
      "Bob" "bob@example.com" "pw" "1" "old" "new" "absent" (by rfl)).2.1
      { id := "1", name := "Ann", email := "ann@example.com", password := "digest:old" }
      (by decide) (by decide)).2,
   (store_failure_returns_null markerHasher failingStore "ECONNRESET"
      "Bob" "bob@example.com" "pw" "1" "old" "new" "absent" (by rfl)).2.2 (by decide)⟩

/-- A query without `page` and with `page_size=0` uses the defaults 1 and
10. -/
theorem page_parameters_defaulting_witness :
    marketplace.page { page := none, page_size := some 0, search := none } = 1 ∧
    marketplace.pageSize { page := none, page_size := some 0, search := none } = 10 :=
  ⟨(page_parameters_defaulting { page := none, page_size := some 0, search := none }).1
      (Or.inl rfl),
   (page_parameters_defaulting { page := none, page_size := some 0, search := none }).2.2.1
      (Or.inr rfl)⟩

/-- The term `cola` matches the product name `Coca-Cola`. -/
theorem search_filter_literal_witness :
    ∃ pred, Transaction.productNameFilter Regex.engine (marketplace.searchProductName colaQuery)
              = some pred ∧
      pred (sampleTransaction (some "Coca-Cola")) = true := by
  obtain ⟨pred, hpred, hiff, _⟩ :=
    search_filter_literal colaQuery (sampleTransaction (some "Coca-Cola")) "Coca-Cola"
      (by decide) (by rfl)
  refine ⟨pred, hpred, hiff.mpr ?_⟩
  unfold Regex.containsIgnoreCase
  decide
